import Mathlib

/-
Verification of the single-flight, time-bounded, TTL-cached snapshot builder
implemented by `RoleMembersFeature` (src/bot/features/role_members.py) and its
structurally identical sibling `SubscriptionFeature`
(src/bot/features/subscriptions.py).

Shallow embedding notes:
* Wall-clock time (`time.time()`) is an `Int`; a scheduler tick advances it.
* The asyncio cooperative scheduler runs each coroutine atomically between
  true suspension points.  In the handler the only true suspension point is
  `asyncio.wait_for(_scan(), ...)`: `lock.locked()`, the uncontended
  `lock.acquire()` inside `async with`, the cache re-check, and `get_guild`
  are all synchronous.  A request therefore advances in two atomic segments:
  `phase1` (everything up to the suspension inside `_build_payload`) and
  `phase2` (the continuation after the member scan finishes or times out).
* Whether a given scan exceeds `build_timeout_seconds` is an oracle bit
  carried by the request (`timesOut`); real durations are not modelled.
* The cache dict is an association list; the lock table is modelled by the
  set (list) of keys whose `asyncio.Lock` is currently held.
-/

namespace Me5rineLab

/-- Cache key `(guild_id, role_id)` used by `RoleMembersFeature`. -/
abbrev Key := Nat × Nat

/-- A role as seen in the bot's local (gateway) cache: `r.id`, `r.name`. -/
structure Role where
  id : Nat
  name : String
deriving DecidableEq

/-- A member record yielded by `guild.fetch_members(limit=None)`:
`member.id` and `member.roles`. -/
structure Member where
  id : Nat
  roles : List Role
deriving DecidableEq

/-- The guild object: `bot.get_guild` either yields one of these or `None`.
`roles` is the local role cache consulted by `guild.get_role`; `members` is
the sequence produced by `fetch_members`. -/
structure Guild where
  id : Nat
  name : String
  roles : List Role
  members : List Member
deriving DecidableEq

/-- The JSON payload assembled by `RoleMembersFeature._build_payload`
(lines 104-111): member dicts `{"discord_user_id": mid}` are flattened to
the id strings they carry. -/
structure Payload where
  guild_id : String
  guild_name : String
  role_id : String
  role_name : String
  count : Nat
  members : List String
deriving DecidableEq

/-- `CacheEntry` dataclass: `ts: float`, `payload: dict`. -/
structure CacheEntry where
  ts : Int
  payload : Payload
deriving DecidableEq

/-- The cache dict `self._cache`, as an association list. -/
abbrev Store := List (Key × CacheEntry)

/-- The set of keys whose per-key `asyncio.Lock` is currently held. -/
abbrev Locks := List Key

/-- `self._cache.get(cache_key)`. -/
def storeGet (s : Store) (k : Key) : Option CacheEntry :=
  (s.find? (fun p => p.1 = k)).map (fun p => p.2)

/-- `self._cache[cache_key] = entry` (dict assignment: replaces any previous
binding for the key, leaves other keys untouched). -/
def storePut (s : Store) (k : Key) (e : CacheEntry) : Store :=
  (k, e) :: s.filter (fun p => p.1 ≠ k)

/-- `lock.locked()`. -/
def lockHeld (l : Locks) (k : Key) : Bool := decide (k ∈ l)

/-- Acquiring the per-key lock (entry into `async with lock`). -/
def lockAcquire (l : Locks) (k : Key) : Locks := k :: l

/-- Releasing the per-key lock (exit from `async with lock`, on every path). -/
def lockRelease (l : Locks) (k : Key) : Locks := l.erase k

/-- `RoleMembersFeature._cache_valid` (line 58-59):
`(time.time() - entry.ts) < self.cache_seconds`. -/
def cache_valid (ttl : Int) (now : Int) (e : CacheEntry) : Bool :=
  decide (now - e.ts < ttl)

/-- The idiom `entry = self._cache.get(k); if entry and self._cache_valid(entry)`:
yields the entry iff it exists and is TTL-valid. -/
def cacheLookup (ttl : Int) (store : Store) (now : Int) (k : Key) : Option CacheEntry :=
  match storeGet store k with
  | some e => if cache_valid ttl now e then some e else none
  | none => none

/-- Static context of one feature instance: the effective TTL
(`self.cache_seconds`) and the bot's guild cache (`bot.get_guild`). -/
structure Config where
  ttl : Int
  env : Nat → Option Guild

/-- The member scan of `_build_payload` (lines 76-80): keep members having a
role with id `role_id`, project to `str(member.id)`, in arrival order. -/
def scan_member_ids (g : Guild) (rid : Nat) : List String :=
  (g.members.filter (fun m => m.roles.any (fun ro => ro.id = rid))).map
    (fun m => toString m.id)

/-- Role-name resolution of `_build_payload` (lines 98-102): local cache
lookup via `guild.get_role`, defaulting to `"unknown"`. -/
def role_name_of (g : Guild) (rid : Nat) : String :=
  match g.roles.find? (fun ro => ro.id = rid) with
  | some ro => ro.name
  | none => "unknown"

/-- The successful-build payload of `_build_payload` (lines 104-112). -/
def buildOk (g : Guild) (rid : Nat) : Payload :=
  let ids := scan_member_ids g rid
  { guild_id := toString g.id
    guild_name := g.name
    role_id := toString rid
    role_name := role_name_of g rid
    count := ids.length
    members := ids }

/-- Terminal responses of the handler. `building` is the HTTP 202
`{"status": "building_cache", ...}` body raised both when the lock is busy
(line 151) and when the scan times out (line 87); it carries no payload. -/
inductive Resp where
  | hit (p : Payload)
  | building
  | notFound404
  | done (p : Payload)
deriving DecidableEq

/-- Where a request stands: not yet scheduled, suspended inside the member
scan while holding the lock (the resolved guild is a coroutine local), or
finished with a response. -/
inductive ReqPhase where
  | pending
  | building (g : Guild)
  | finished (r : Resp)
deriving DecidableEq

/-- Whether a request is inside the build phase. -/
def ReqPhase.isBuilding : ReqPhase → Bool
  | .building _ => true
  | _ => false

/-- One in-flight request to `GET /role-members` (post query validation):
its parsed ids, the oracle bit saying whether its scan would exceed
`build_timeout_seconds`, and its current phase. -/
structure Req where
  gid : Nat
  rid : Nat
  timesOut : Bool
  phase : ReqPhase
deriving DecidableEq

/-- `cache_key = (guild_id, role_id)` (line 140). -/
def Req.key (r : Req) : Key := (r.gid, r.rid)

/-- The body of `async with lock` up to the first suspension (lines 162-168):
re-check the cache, resolve the guild, and either terminate (releasing the
lock) or stay suspended in the scan (keeping it).  `store` is the cache as
observed at the re-check. -/
def lockedSection (c : Config) (store : Store) (locks : Locks) (now : Int)
    (gid rid : Nat) : ReqPhase × Locks :=
  match cacheLookup c.ttl store now (gid, rid) with
  | some e2 => (ReqPhase.finished (Resp.hit e2.payload), lockRelease locks (gid, rid))
  | none =>
    match c.env gid with
    | none => (ReqPhase.finished Resp.notFound404, lockRelease locks (gid, rid))
    | some g => (ReqPhase.building g, locks)

/-- First atomic segment of `handler` (lines 143-168): cache hit, busy
signal, or entry into the locked section.  The third component records
whether the per-key lock was acquired on this path. -/
def phase1 (c : Config) (store : Store) (locks : Locks) (now : Int)
    (gid rid : Nat) : ReqPhase × Locks × Bool :=
  match cacheLookup c.ttl store now (gid, rid) with
  | some e => (ReqPhase.finished (Resp.hit e.payload), locks, false)
  | none =>
    if lockHeld locks (gid, rid) then (ReqPhase.finished Resp.building, locks, false)
    else
      match lockedSection c store (lockAcquire locks (gid, rid)) now gid rid with
      | (ph, lk) => (ph, lk, true)

/-- Second atomic segment (lines 82-96 of `_build_payload` resumed into
lines 169-170 of `handler`): either the scan timed out — the HTTP 202 is
raised, the partial id list is dropped, the store is untouched — or the
payload is assembled, committed with `ts = time.time()`, and returned.
`async with` releases the lock on both paths. -/
def phase2 (store : Store) (locks : Locks) (now : Int) (gid rid : Nat)
    (timesOut : Bool) (g : Guild) : ReqPhase × Store × Locks :=
  if timesOut then
    (ReqPhase.finished Resp.building, store, lockRelease locks (gid, rid))
  else
    let p := buildOk g rid
    (ReqPhase.finished (Resp.done p),
     storePut store (gid, rid) { ts := now, payload := p },
     lockRelease locks (gid, rid))

/-- Whole-system state: the in-flight requests, the shared cache dict, the
held locks, and the clock. -/
structure Sys where
  reqs : List Req
  store : Store
  locks : Locks
  now : Int

/-- Effect of scheduling a pending request through `phase1`. -/
def applyStart (c : Config) (s : Sys) (i : Nat) (r : Req) : Sys :=
  let out := phase1 c s.store s.locks s.now r.gid r.rid
  { s with reqs := s.reqs.set i { r with phase := out.1 }, locks := out.2.1 }

/-- Effect of resuming a suspended build through `phase2`. -/
def applyFinish (c : Config) (s : Sys) (i : Nat) (r : Req) (g : Guild) : Sys :=
  let out := phase2 s.store s.locks s.now r.gid r.rid r.timesOut g
  { s with reqs := s.reqs.set i { r with phase := out.1 },
           store := out.2.1, locks := out.2.2 }

/-- Interleaving semantics: the clock ticks, a pending request runs its
first atomic segment, or a suspended build resumes and terminates. -/
inductive Step (c : Config) : Sys → Sys → Prop where
  | tick (s : Sys) : Step c s { s with now := s.now + 1 }
  | start (s : Sys) (i : Nat) (r : Req) (hr : s.reqs.get? i = some r)
      (hp : r.phase = ReqPhase.pending) : Step c s (applyStart c s i r)
  | finish (s : Sys) (i : Nat) (r : Req) (g : Guild) (hr : s.reqs.get? i = some r)
      (hp : r.phase = ReqPhase.building g) : Step c s (applyFinish c s i r g)

/-- Fresh process state: empty cache, no lock held, nothing scheduled. -/
def Init (s : Sys) : Prop :=
  s.store = [] ∧ s.locks = [] ∧ ∀ r ∈ s.reqs, r.phase = ReqPhase.pending

/-- States reachable by interleaving requests from a fresh process state. -/
def Reachable (c : Config) (s : Sys) : Prop :=
  ∃ s0, Init s0 ∧ Relation.ReflTransGen (Step c) s0 s

/-- The mutual-exclusion invariant tying the lock table to the build phase:
held locks are distinct, a building request holds its key's lock, two
distinct requests never build the same key simultaneously, and every held
lock belongs to some in-flight build. -/
def Inv (s : Sys) : Prop :=
  s.locks.Nodup
  ∧ (∀ i r, s.reqs.get? i = some r → r.phase.isBuilding = true → r.key ∈ s.locks)
  ∧ (∀ i j ri rj, i ≠ j → s.reqs.get? i = some ri → s.reqs.get? j = some rj →
      ri.key = rj.key → ri.phase.isBuilding = true → rj.phase.isBuilding = false)
  ∧ (∀ k, k ∈ s.locks → ∃ i r, s.reqs.get? i = some r ∧ r.key = k ∧
      r.phase.isBuilding = true)

/-- The two configuration options a feature instance keeps from its
constructor arguments. -/
structure FeatureSettings where
  cache_seconds : Int
  build_timeout_seconds : Int
deriving DecidableEq

/-- `RoleMembersFeature.__init__` (lines 37-38):
`self.cache_seconds = max(10, int(cache_seconds))`,
`self.build_timeout_seconds = max(5, int(build_timeout_seconds))`. -/
def roleMembersSettings (cache_seconds build_timeout_seconds : Int) : FeatureSettings :=
  { cache_seconds := max 10 cache_seconds
    build_timeout_seconds := max 5 build_timeout_seconds }

/-- `SubscriptionFeature.__init__` (lines 36-37): identical floors. -/
def subscriptionSettings (cache_seconds build_timeout_seconds : Int) : FeatureSettings :=
  { cache_seconds := max 10 cache_seconds
    build_timeout_seconds := max 5 build_timeout_seconds }

/-- Concrete fixtures used by the witness theorems. -/
def demoRole : Role := { id := 5, name := "booster" }

def demoMember : Member := { id := 7, roles := [demoRole] }

def demoGuild : Guild :=
  { id := 1, name := "lab", roles := [demoRole], members := [demoMember] }

def demoConfig : Config :=
  { ttl := 10, env := fun gid => if gid = 1 then some demoGuild else none }

def demoReq : Req := { gid := 1, rid := 5, timesOut := false, phase := ReqPhase.pending }

def demoSys0 : Sys := { reqs := [demoReq, demoReq], store := [], locks := [], now := 0 }

def demoSys1 : Sys := applyStart demoConfig demoSys0 0 demoReq

def demoBuildingReq : Req :=
  { gid := 1, rid := 5, timesOut := false, phase := ReqPhase.building demoGuild }

def demoTimeoutReq : Req :=
  { gid := 1, rid := 5, timesOut := true, phase := ReqPhase.building demoGuild }

def demoPayload : Payload := buildOk demoGuild 5

def demoEntry : CacheEntry := { ts := 0, payload := demoPayload }

def demoStore : Store := [((1, 5), demoEntry)]

def demoNFReq : Req := { gid := 9, rid := 9, timesOut := false, phase := ReqPhase.pending }

def demoNFSys : Sys :=
  { reqs := [demoNFReq], store := [((9, 9), demoEntry)], locks := [], now := 100 }

def demoNoRoleGuild : Guild :=
  { id := 2, name := "lab2", roles := [], members := [demoMember] }

lemma get?_lt_length {l : List Req} {i : Nat} {r : Req}
    (h : l.get? i = some r) : i < l.length :=
  (List.get?_eq_some.mp h).1

/-- A step that rewrites one non-building request to a non-building request
and leaves the lock table alone preserves the invariant. -/
lemma inv_preserve_nonbuilding (s s' : Sys) (i : Nat) (r r' : Req)
    (hreqs : s'.reqs = s.reqs.set i r') (hlocks : s'.locks = s.locks)
    (hr : s.reqs.get? i = some r) (hnb : r.phase.isBuilding = false)
    (hnb' : r'.phase.isBuilding = false) (hinv : Inv s) : Inv s' := by
  obtain ⟨hnd, h1, h2, h3⟩ := hinv
  refine ⟨by rw [hlocks]; exact hnd, ?_, ?_, ?_⟩
  · intro i' r'' hg hb
    rw [hreqs] at hg
    rw [hlocks]
    by_cases hii : i = i'
    · subst hii
      rw [List.get?_set_eq_of_lt _ (get?_lt_length hr)] at hg
      cases hg
      exact absurd hb (by rw [hnb']; exact Bool.false_ne_true)
    · rw [List.get?_set_ne _ _ hii] at hg
      exact h1 i' r'' hg hb
  · intro i' j' ri rj hne hgi hgj hkey hbi
    rw [hreqs] at hgi hgj
    by_cases hii : i = i'
    · subst hii
      rw [List.get?_set_eq_of_lt _ (get?_lt_length hr)] at hgi
      cases hgi
      exact absurd hbi (by rw [hnb']; exact Bool.false_ne_true)
    · rw [List.get?_set_ne _ _ hii] at hgi
      by_cases hjj : i = j'
      · subst hjj
        rw [List.get?_set_eq_of_lt _ (get?_lt_length hr)] at hgj
        cases hgj
        exact hnb'
      · rw [List.get?_set_ne _ _ hjj] at hgj
        exact h2 i' j' ri rj hne hgi hgj hkey hbi
  · intro k hk
    rw [hlocks] at hk
    obtain ⟨i0, r0, hg0, hk0, hb0⟩ := h3 k hk
    have hii : i ≠ i0 := by
      intro hcontr
      subst hcontr
      rw [hr] at hg0
      cases hg0
      exact absurd hb0 (by rw [hnb]; exact Bool.false_ne_true)
    exact ⟨i0, r0, by rw [hreqs, List.get?_set_ne _ _ hii]; exact hg0, hk0, hb0⟩

/-- Entering the build phase for a key whose lock was free preserves the
invariant: the key's lock is taken and the request becomes the key's sole
builder. -/
lemma inv_enter_building (s s' : Sys) (i : Nat) (r : Req) (g : Guild)
    (hreqs : s'.reqs = s.reqs.set i { r with phase := ReqPhase.building g })
    (hlocks : s'.locks = lockAcquire s.locks r.key)
    (hr : s.reqs.get? i = some r) (hnb : r.phase.isBuilding = false)
    (hfree : r.key ∉ s.locks) (hinv : Inv s) : Inv s' := by
  obtain ⟨hnd, h1, h2, h3⟩ := hinv
  refine ⟨by rw [hlocks]; exact List.Nodup.cons hfree hnd, ?_, ?_, ?_⟩
  · intro i' r'' hg hb
    rw [hreqs] at hg
    rw [hlocks, lockAcquire]
    by_cases hii : i = i'
    · subst hii
      rw [List.get?_set_eq_of_lt _ (get?_lt_length hr)] at hg
      cases hg
      exact List.mem_cons_self _ _
    · rw [List.get?_set_ne _ _ hii] at hg
      exact List.mem_cons_of_mem _ (h1 i' r'' hg hb)
  · intro i' j' ri rj hne hgi hgj hkey hbi
    rw [hreqs] at hgi hgj
    by_cases hii : i = i'
    · subst hii
      rw [List.get?_set_eq_of_lt _ (get?_lt_length hr)] at hgi
      cases hgi
      have hjj : i ≠ j' := hne
      rw [List.get?_set_ne _ _ hjj] at hgj
      cases hb' : rj.phase.isBuilding
      · rfl
      · exact absurd (hkey ▸ h1 j' rj hgj hb') hfree
    · rw [List.get?_set_ne _ _ hii] at hgi
      by_cases hjj : i = j'
      · subst hjj
        rw [List.get?_set_eq_of_lt _ (get?_lt_length hr)] at hgj
        cases hgj
        have : ri.key ∈ s.locks := h1 i' ri hgi hbi
        rw [hkey] at this
        exact absurd this hfree
      · rw [List.get?_set_ne _ _ hjj] at hgj
        exact h2 i' j' ri rj hne hgi hgj hkey hbi
  · intro k hk
    rw [hlocks, lockAcquire, List.mem_cons] at hk
    rcases hk with hk | hk
    · refine ⟨i, { r with phase := ReqPhase.building g }, ?_, ?_, rfl⟩
      · rw [hreqs]
        exact List.get?_set_eq_of_lt _ (get?_lt_length hr)
      · rw [hk]; rfl
    · obtain ⟨i0, r0, hg0, hk0, hb0⟩ := h3 k hk
      have hii : i ≠ i0 := by
        intro hcontr
        subst hcontr
        rw [hr] at hg0
        cases hg0
        exact absurd hb0 (by rw [hnb]; exact Bool.false_ne_true)
      exact ⟨i0, r0, by rw [hreqs, List.get?_set_ne _ _ hii]; exact hg0, hk0, hb0⟩

/-- Leaving the build phase (success or timeout) preserves the invariant:
the builder's lock is released and the request stops building. -/
lemma inv_exit_building (s s' : Sys) (i : Nat) (r r' : Req)
    (hreqs : s'.reqs = s.reqs.set i r')
    (hlocks : s'.locks = lockRelease s.locks r.key)
    (hkey' : r'.key = r.key) (hnb' : r'.phase.isBuilding = false)
    (hr : s.reqs.get? i = some r) (hb : r.phase.isBuilding = true)
    (hinv : Inv s) : Inv s' := by
  obtain ⟨hnd, h1, h2, h3⟩ := hinv
  refine ⟨by rw [hlocks, lockRelease]; exact List.Nodup.erase _ hnd, ?_, ?_, ?_⟩
  · intro i' r'' hg hbb
    rw [hreqs] at hg
    rw [hlocks, lockRelease]
    by_cases hii : i = i'
    · subst hii
      rw [List.get?_set_eq_of_lt _ (get?_lt_length hr)] at hg
      cases hg
      exact absurd hbb (by rw [hnb']; exact Bool.false_ne_true)
    · rw [List.get?_set_ne _ _ hii] at hg
      have hmem : r''.key ∈ s.locks := h1 i' r'' hg hbb
      have hne : r''.key ≠ r.key := by
        intro hcontr
        have := h2 i' i r'' r (fun hx => hii hx.symm) hg hr hcontr hbb
        exact absurd hb (by rw [this]; exact Bool.false_ne_true)
      exact (List.mem_erase_of_ne hne).mpr hmem
  · intro i' j' ri rj hne hgi hgj hkey hbi
    rw [hreqs] at hgi hgj
    by_cases hii : i = i'
    · subst hii
      rw [List.get?_set_eq_of_lt _ (get?_lt_length hr)] at hgi
      cases hgi
      exact absurd hbi (by rw [hnb']; exact Bool.false_ne_true)
    · rw [List.get?_set_ne _ _ hii] at hgi
      by_cases hjj : i = j'
      · subst hjj
        rw [List.get?_set_eq_of_lt _ (get?_lt_length hr)] at hgj
        cases hgj
        exact hnb'
      · rw [List.get?_set_ne _ _ hjj] at hgj
        exact h2 i' j' ri rj hne hgi hgj hkey hbi
  · intro k hk
    rw [hlocks, lockRelease, List.Nodup.mem_erase_iff hnd] at hk
    obtain ⟨hkne, hk⟩ := hk
    obtain ⟨i0, r0, hg0, hk0, hb0⟩ := h3 k hk
    have hii : i ≠ i0 := by
      intro hcontr
      subst hcontr
      rw [hr] at hg0
      cases hg0
      exact hkne hk0.symm
    exact ⟨i0, r0, by rw [hreqs, List.get?_set_ne _ _ hii]; exact hg0, hk0, hb0⟩

/-- `phase2` never leaves the request in the build phase. -/
lemma phase2_not_building (store : Store) (locks : Locks) (now : Int)
    (gid rid : Nat) (timesOut : Bool) (g : Guild) :
    (phase2 store locks now gid rid timesOut g).1.isBuilding = false := by
  cases timesOut <;> rfl

/-- `phase2` releases the per-key lock on both of its paths. -/
lemma phase2_locks (store : Store) (locks : Locks) (now : Int)
    (gid rid : Nat) (timesOut : Bool) (g : Guild) :
    (phase2 store locks now gid rid timesOut g).2.2 = lockRelease locks (gid, rid) := by
  cases timesOut <;> rfl

/-- A fresh process state satisfies the invariant. -/
lemma inv_init {s : Sys} (h : Init s) : Inv s := by
  obtain ⟨_, hlocks, hreq⟩ := h
  refine ⟨by rw [hlocks]; exact List.nodup_nil, ?_, ?_, ?_⟩
  · intro i r hg hb
    have hp := hreq r (List.get?_mem hg)
    exact absurd hb (by rw [hp]; exact Bool.false_ne_true)
  · intro i j ri rj hne hgi hgj hkey hbi
    have hp := hreq ri (List.get?_mem hgi)
    exact absurd hbi (by rw [hp]; exact Bool.false_ne_true)
  · intro k hk
    rw [hlocks] at hk
    exact absurd hk (List.not_mem_nil k)

/-- Every scheduler step preserves the invariant. -/
lemma inv_step {c : Config} {s s' : Sys} (hinv : Inv s) (hstep : Step c s s') :
    Inv s' := by
  cases hstep with
  | tick => exact hinv
  | start i r hr hp =>
    have hnb : r.phase.isBuilding = false := by rw [hp]; rfl
    rcases hcl : cacheLookup c.ttl s.store s.now (r.gid, r.rid) with _ | e
    · cases hlk : lockHeld s.locks (r.gid, r.rid) with
      | true =>
        have h1 : phase1 c s.store s.locks s.now r.gid r.rid =
            (ReqPhase.finished Resp.building, s.locks, false) := by
          simp [phase1, hcl, hlk]
        exact inv_preserve_nonbuilding s _ i r
          { r with phase := ReqPhase.finished Resp.building }
          (by simp [applyStart, h1]) (by simp [applyStart, h1]) hr hnb rfl hinv
      | false =>
        rcases henv : c.env r.gid with _ | g
        · have h1 : phase1 c s.store s.locks s.now r.gid r.rid =
              (ReqPhase.finished Resp.notFound404, s.locks, true) := by
            simp [phase1, lockedSection, hcl, hlk, henv, lockAcquire, lockRelease]
          exact inv_preserve_nonbuilding s _ i r
            { r with phase := ReqPhase.finished Resp.notFound404 }
            (by simp [applyStart, h1]) (by simp [applyStart, h1]) hr hnb rfl hinv
        · have h1 : phase1 c s.store s.locks s.now r.gid r.rid =
              (ReqPhase.building g, lockAcquire s.locks (r.gid, r.rid), true) := by
            simp [phase1, lockedSection, hcl, hlk, henv]
          have hfree : r.key ∉ s.locks := by
            intro hmem
            rw [lockHeld, decide_eq_false_iff_not] at hlk
            exact hlk hmem
          exact inv_enter_building s _ i r g
            (by simp [applyStart, h1]) (by simp [applyStart, h1, Req.key]) hr hnb
            hfree hinv
    · have h1 : phase1 c s.store s.locks s.now r.gid r.rid =
          (ReqPhase.finished (Resp.hit e.payload), s.locks, false) := by
        simp [phase1, hcl]
      exact inv_preserve_nonbuilding s _ i r
        { r with phase := ReqPhase.finished (Resp.hit e.payload) }
        (by simp [applyStart, h1]) (by simp [applyStart, h1]) hr hnb rfl hinv
  | finish i r g hr hp =>
    have hb : r.phase.isBuilding = true := by rw [hp]; rfl
    refine inv_exit_building s _ i r
      { r with
        phase := (phase2 s.store s.locks s.now r.gid r.rid r.timesOut g).1 }
      rfl ?_ rfl
      (phase2_not_building s.store s.locks s.now r.gid r.rid r.timesOut g)
      hr hb hinv
    show (applyFinish c s i r g).locks = lockRelease s.locks r.key
    simp [applyFinish, phase2_locks, Req.key]

/-- The invariant holds in every reachable state. -/
lemma inv_reachable {c : Config} {s : Sys} (h : Reachable c s) : Inv s := by
  obtain ⟨s0, h0, hsteps⟩ := h
  induction hsteps with
  | refl => exact inv_init h0
  | tail _ hbc ih => exact inv_step ih hbc

lemma demoSys0_init : Init demoSys0 := by
  refine ⟨rfl, rfl, ?_⟩
  intro r hr
  rcases List.mem_cons.mp hr with h | h
  · rw [h]; rfl
  · rcases List.mem_cons.mp h with h2 | h2
    · rw [h2]; rfl
    · exact absurd h2 (List.not_mem_nil r)

lemma demoSys1_reachable : Reachable demoConfig demoSys1 :=
  ⟨demoSys0, demoSys0_init,
   Relation.ReflTransGen.single (Step.start demoSys0 0 demoReq rfl rfl)⟩

/-- Claim C1: for every cache key, at most one request is ever inside the
build phase at any instant.  In every state reachable by interleaving
requests from a fresh process, two distinct requests with the same cache
key are never both in the build phase. -/
theorem single_flight_per_key (c : Config) (s : Sys) (h : Reachable c s)
    (i j : Nat) (ri rj : Req) (hij : i ≠ j)
    (hi : s.reqs.get? i = some ri) (hj : s.reqs.get? j = some rj)
    (hkey : ri.key = rj.key) (hbi : ri.phase.isBuilding = true) :
    rj.phase.isBuilding = false :=
  (inv_reachable h).2.2.1 i j ri rj hij hi hj hkey hbi

/-- Witness for C1: after one concrete step the first request is building
key `(1, 5)`, so the second request for the same key is not. -/
theorem single_flight_per_key_witness : demoReq.phase.isBuilding = false :=
  single_flight_per_key demoConfig demoSys1 demoSys1_reachable 0 1
    demoBuildingReq demoReq (by decide) rfl rfl rfl rfl

/-- Claim C2: a build attempt that ends in the timeout signal leaves the
cache store exactly as it was before the attempt: the first atomic segment
never writes the store, and the timed-out continuation returns the 202
building signal (which carries no payload) with the store untouched. -/
theorem timeout_discards_partial_snapshot (c : Config) (s : Sys) (i : Nat) (r : Req)
    (g : Guild) (hto : r.timesOut = true) :
    (applyFinish c s i r g).store = s.store
    ∧ (phase2 s.store s.locks s.now r.gid r.rid r.timesOut g).1 =
        ReqPhase.finished Resp.building
    ∧ ∀ (s' : Sys) (i' : Nat) (r' : Req), (applyStart c s' i' r').store = s'.store := by
  refine ⟨?_, ?_, fun s' i' r' => rfl⟩
  · simp [applyFinish, phase2, hto]
  · simp [phase2, hto]

/-- Witness for C2: a concrete timed-out build leaves the store of the
in-flight state unchanged. -/
theorem timeout_discards_partial_snapshot_witness :
    (applyFinish demoConfig demoSys1 0 demoTimeoutReq demoGuild).store =
      demoSys1.store :=
  (timeout_discards_partial_snapshot demoConfig demoSys1 0 demoTimeoutReq demoGuild rfl).1

/-- Claim C3: a request that finds the per-key lock already held returns the
immediate 202 building signal: its whole processing is the single atomic
segment `phase1`, which terminates at once with `Resp.building`, acquires
nothing, and leaves the lock table unchanged — there is no step that blocks
or queues on a held lock. -/
theorem busy_immediate_no_block (c : Config) (store : Store) (locks : Locks)
    (now : Int) (gid rid : Nat)
    (hmiss : cacheLookup c.ttl store now (gid, rid) = none)
    (hheld : lockHeld locks (gid, rid) = true) :
    phase1 c store locks now gid rid = (ReqPhase.finished Resp.building, locks, false) := by
  simp [phase1, hmiss, hheld]

/-- Witness for C3 at a concrete held lock and empty cache. -/
theorem busy_immediate_no_block_witness :
    phase1 demoConfig [] [(1, 5)] 0 1 5 =
      (ReqPhase.finished Resp.building, [(1, 5)], false) :=
  busy_immediate_no_block demoConfig [] [(1, 5)] 0 1 5 rfl rfl

/-- Claim C4: the per-key lock is released on every exit path of the build
phase.  In every reachable state a key's lock is held exactly when some
request is inside the build phase for that key (so no terminated path
leaves a key locked), and the build continuation `phase2` releases the lock
on both its exits (timeout and success). -/
theorem lock_released_on_every_path (c : Config) (s : Sys) (h : Reachable c s) :
    (∀ k : Key, lockHeld s.locks k = true ↔
      ∃ i r g, s.reqs.get? i = some r ∧ r.key = k ∧ r.phase = ReqPhase.building g)
    ∧ ∀ (store : Store) (locks : Locks) (now : Int) (gid rid : Nat)
        (timesOut : Bool) (g : Guild),
        (phase2 store locks now gid rid timesOut g).2.2 = lockRelease locks (gid, rid) := by
  obtain ⟨hnd, h1, h2, h3⟩ := inv_reachable h
  refine ⟨?_, fun store locks now gid rid timesOut g =>
    phase2_locks store locks now gid rid timesOut g⟩
  intro k
  constructor
  · intro hk
    obtain ⟨i, r, hg, hkey, hb⟩ := h3 k (of_decide_eq_true hk)
    cases hph : r.phase with
    | pending => rw [hph] at hb; exact absurd hb Bool.false_ne_true
    | building g => exact ⟨i, r, g, hg, hkey, hph⟩
    | finished resp => rw [hph] at hb; exact absurd hb Bool.false_ne_true
  · rintro ⟨i, r, g, hg, hkey, hph⟩
    have hb : r.phase.isBuilding = true := by rw [hph]; rfl
    have hmem := h1 i r hg hb
    rw [hkey] at hmem
    exact decide_eq_true hmem

/-- Witness for C4: in the concrete in-flight state the lock for `(1, 5)`
is held, which the theorem ties to the existing build for that key. -/
theorem lock_released_on_every_path_witness :
    lockHeld demoSys1.locks (1, 5) = true :=
  ((lock_released_on_every_path demoConfig demoSys1 demoSys1_reachable).1 (1, 5)).mpr
    ⟨0, demoBuildingReq, demoGuild, rfl, rfl, rfl⟩

/-- Claim C5: with an entry stored for the key, the request is served from
cache exactly when `now - entry.ts < ttl` (strict); at or past the TTL
boundary the request enters a fresh build instead of serving the stale
entry. -/
theorem ttl_strict_validity (c : Config) (store : Store) (locks : Locks)
    (now : Int) (gid rid : Nat) (e : CacheEntry) (g : Guild)
    (hget : storeGet store (gid, rid) = some e)
    (henv : c.env gid = some g)
    (hfree : lockHeld locks (gid, rid) = false) :
    ((phase1 c store locks now gid rid).1 = ReqPhase.finished (Resp.hit e.payload) ↔
      now - e.ts < c.ttl)
    ∧ (c.ttl ≤ now - e.ts →
        (phase1 c store locks now gid rid).1 = ReqPhase.building g) := by
  by_cases hv : now - e.ts < c.ttl
  · have hcl : cacheLookup c.ttl store now (gid, rid) = some e := by
      simp [cacheLookup, hget, cache_valid, hv]
    constructor
    · simp [phase1, hcl, hv]
    · intro hle
      exact absurd hv (not_lt.mpr hle)
  · have hcl : cacheLookup c.ttl store now (gid, rid) = none := by
      simp [cacheLookup, hget, cache_valid, hv]
    have hph : (phase1 c store locks now gid rid).1 = ReqPhase.building g := by
      simp [phase1, lockedSection, hcl, hfree, henv]
    constructor
    · rw [hph]
      constructor
      · intro hcontr
        exact absurd hcontr (by simp)
      · intro hcontr
        exact absurd hcontr hv
    · intro _
      exact hph

/-- Witness for C5: an entry of age 5 under TTL 10 is served from cache. -/
theorem ttl_strict_validity_witness :
    (phase1 demoConfig demoStore [] 5 1 5).1 =
      ReqPhase.finished (Resp.hit demoEntry.payload) :=
  ((ttl_strict_validity demoConfig demoStore [] 5 1 5 demoEntry demoGuild
      rfl rfl rfl).1).mpr (by decide)

/-- Claim C6 as stated is false on the code: entity resolution happens
inside `async with lock` (lines 162-168), so the NotFound path does acquire
the per-key lock.  At a concrete input with no guild 9 the request both
returns NotFound and reports the lock as having been acquired. -/
theorem notfound_lock_counterexample :
    (phase1 demoConfig [] [] 0 9 9).1 = ReqPhase.finished Resp.notFound404
    ∧ (phase1 demoConfig [] [] 0 9 9).2.2 = true :=
  ⟨rfl, rfl⟩

/-- Claim C6 amended: when entity resolution fails, the request returns
NotFound; the per-key lock is acquired before resolution and released on
the error path, so the lock table is left exactly as it was. -/
theorem notfound_acquires_and_releases_lock (c : Config) (store : Store)
    (locks : Locks) (now : Int) (gid rid : Nat)
    (hmiss : cacheLookup c.ttl store now (gid, rid) = none)
    (hfree : lockHeld locks (gid, rid) = false)
    (henv : c.env gid = none) :
    phase1 c store locks now gid rid =
      (ReqPhase.finished Resp.notFound404, locks, true) := by
  simp [phase1, lockedSection, hmiss, hfree, henv, lockAcquire, lockRelease]

/-- Witness for the amended C6 at the concrete failing input. -/
theorem notfound_acquires_and_releases_lock_witness :
    phase1 demoConfig [] [] 0 9 9 =
      (ReqPhase.finished Resp.notFound404, [], true) :=
  notfound_acquires_and_releases_lock demoConfig [] [] 0 9 9 rfl rfl rfl

/-- Claim C7: the locked section re-reads the cache before any build; if
the entry it observes is valid, that entry's payload is returned, the lock
is released, and the builder is never entered (the result is a terminal
`hit`, not a `building` phase). -/
theorem recheck_after_acquire_serves_cache (c : Config) (store : Store)
    (locks : Locks) (now : Int) (gid rid : Nat) (e : CacheEntry)
    (hget : storeGet store (gid, rid) = some e)
    (hval : cache_valid c.ttl now e = true) :
    lockedSection c store locks now gid rid =
      (ReqPhase.finished (Resp.hit e.payload), lockRelease locks (gid, rid)) := by
  simp [lockedSection, cacheLookup, hget, hval]

/-- Witness for C7: a valid entry observed at the re-check is returned and
the lock released. -/
theorem recheck_after_acquire_serves_cache_witness :
    lockedSection demoConfig demoStore [(1, 5)] 5 1 5 =
      (ReqPhase.finished (Resp.hit demoEntry.payload), lockRelease [(1, 5)] (1, 5)) :=
  recheck_after_acquire_serves_cache demoConfig demoStore [(1, 5)] 5 1 5 demoEntry
    rfl rfl

/-- Claim C8: both features floor their configuration at construction —
effective TTL is `max 10 ttl_seconds` and effective deadline is
`max 5 deadline_seconds`; configuring `ttl_seconds = 1` yields 10, also as
observed through the cache-staleness boundary. -/
theorem config_floor_enforcement :
    (∀ t d : Int,
      (roleMembersSettings t d).cache_seconds = max 10 t
      ∧ (roleMembersSettings t d).build_timeout_seconds = max 5 d
      ∧ (subscriptionSettings t d).cache_seconds = max 10 t
      ∧ (subscriptionSettings t d).build_timeout_seconds = max 5 d)
    ∧ (roleMembersSettings 1 25).cache_seconds = 10
    ∧ (subscriptionSettings 1 25).cache_seconds = 10
    ∧ ∀ (e : CacheEntry) (now : Int),
        cache_valid (roleMembersSettings 1 25).cache_seconds now e =
          decide (now - e.ts < 10) := by
  have h10 : (roleMembersSettings 1 25).cache_seconds = 10 := by decide
  refine ⟨fun t d => ⟨rfl, rfl, rfl, rfl⟩, h10, by decide, ?_⟩
  intro e now
  simp only [cache_valid, h10]

/-- Claim C9: a request failing with entity-not-found leaves the cache
store unchanged — it neither creates an entry nor replaces an existing
(expired) one — while the request terminates with NotFound. -/
theorem notfound_leaves_store_unchanged (c : Config) (s : Sys) (i : Nat) (r : Req)
    (hr : s.reqs.get? i = some r)
    (hmiss : cacheLookup c.ttl s.store s.now (r.gid, r.rid) = none)
    (hfree : lockHeld s.locks (r.gid, r.rid) = false)
    (henv : c.env r.gid = none) :
    (applyStart c s i r).store = s.store
    ∧ (applyStart c s i r).reqs.get? i =
        some { r with phase := ReqPhase.finished Resp.notFound404 } := by
  have h1 : phase1 c s.store s.locks s.now r.gid r.rid =
      (ReqPhase.finished Resp.notFound404, s.locks, true) := by
    simp [phase1, lockedSection, hmiss, hfree, henv, lockAcquire, lockRelease]
  constructor
  · rfl
  · simp only [applyStart, h1]
    exact List.get?_set_eq_of_lt _ (get?_lt_length hr)

/-- Witness for C9: a concrete failed request with an expired entry in the
store for its key leaves that store untouched. -/
theorem notfound_leaves_store_unchanged_witness :
    (applyStart demoConfig demoNFSys 0 demoNFReq).store = demoNFSys.store :=
  (notfound_leaves_store_unchanged demoConfig demoNFSys 0 demoNFReq
      rfl rfl rfl rfl).1

/-- Claim C10: when the role id is absent from the guild's local role
cache, the build still succeeds — `role_name` is the literal `"unknown"`,
`count` and `members` reflect the scan's matches — and the successful
continuation commits the payload to the store. -/
theorem unknown_role_name_still_cached (g : Guild) (rid : Nat)
    (hrole : ∀ ro ∈ g.roles, ro.id ≠ rid) :
    (buildOk g rid).role_name = "unknown"
    ∧ (buildOk g rid).count = (scan_member_ids g rid).length
    ∧ (buildOk g rid).members = scan_member_ids g rid
    ∧ ∀ (store : Store) (locks : Locks) (now : Int) (gid : Nat),
        phase2 store locks now gid rid false g =
          (ReqPhase.finished (Resp.done (buildOk g rid)),
           storePut store (gid, rid) { ts := now, payload := buildOk g rid },
           lockRelease locks (gid, rid)) := by
  have hfind : g.roles.find? (fun ro => ro.id = rid) = none := by
    rw [List.find?_eq_none]
    intro ro hro
    simp [hrole ro hro]
  refine ⟨?_, rfl, rfl, fun store locks now gid => rfl⟩
  simp [buildOk, role_name_of, hfind]

/-- Witness for C10: a guild with an empty local role cache but a matching
member yields a successful payload with `role_name = "unknown"`. -/
theorem unknown_role_name_still_cached_witness :
    (buildOk demoNoRoleGuild 5).role_name = "unknown" :=
  (unknown_role_name_still_cached demoNoRoleGuild 5 (by decide)).1

end Me5rineLab
